import Mathlib

/-!
Verification of the `faker-clickstream` session generator
(`faker_clickstream/clickstream.py`).

The Python module is shallowly embedded below.  Randomness is modelled by an
explicit `Oracle`: each field records the outcome of one of the program's
random draws (`randint`, `random.choices`, `np.random.pareto`, `choice`), and
range facts that the Python primitives guarantee (`randint(1, n)` lies in
`[1, n]`, a Pareto sample is non-negative, ...) appear as hypotheses on the
oracle.  The mutable per-session data — including the module-level
`weighted_events` list, which the loop aliases through `event` and mutates
via `event['name'] = 'Search'` — is threaded through `SessionState`.
Wall-clock time is a rational number of seconds; the `strftime` formatting of
timestamps is abstracted to the underlying time value.
-/

namespace Clickstream

/-- One entry of the weighted event table (`weighted_events` in
`event_constants`): name, popularity weight, dependency list and dependency
filter (`"all"`/`"any"`). -/
structure EventDef where
  name : String
  popularity : Nat
  dependsOn : List String
  dependencyFilter : String
deriving DecidableEq

/-- One entry of the `mobile_phones` catalog. -/
structure MobilePhone where
  model_name : String
  brand_name : String
  os : String
  popularity : Nat
deriving DecidableEq

/-- The `metadata` dictionary of an emitted event.  Only the four keys that
`session_clickstream` ever writes are modelled; `none` means "key absent". -/
structure Metadata where
  query : Option String := none
  product_id : Option Nat := none
  quantity : Option Nat := none
  order_id : Option Nat := none
deriving DecidableEq

/-- The empty `metadata` dictionary (`metadata = {}`). -/
def emptyMetadata : Metadata := ⟨none, none, none, none⟩

/-- One emitted clickstream record (the dictionary `r` built at the end of
each loop iteration of `session_clickstream`).  `event_time` is the clock
value that the Python code formats with `strftime`. -/
structure EventRecord where
  ip : String
  user_id : Nat
  user_agent : String
  session_id : String
  event_time : ℚ
  event_name : String
  channel : String
  metadata : Metadata
deriving DecidableEq

/- ------------------------------------------------------------------ -/
/- `_parse_time_interval` (clickstream.py lines 170-198)               -/
/- ------------------------------------------------------------------ -/

/-- The Unicode decimal-digit table: Python's `\d` matches exactly the
characters of Unicode category Nd, and `int()` reads their decimal values.
This table is external input to the model, passed as a parameter:
`decVal c = some d` means `c` is a decimal digit of value `d` (so the model
covers the non-ASCII digits such as `'٥'` that the source accepts).  Facts
about the real table that a proof needs — `'+'` and `'-'` are not decimal
digits, the ASCII digits `'0'`-`'9'` have their usual values — enter as
hypotheses or via the concrete ASCII fragment `asciiDigitVal`. -/
def asciiDigitVal : Char → Option Nat :=
  fun c => if c.isDigit then some (c.toNat - 48) else none

/-- Numeric value of a digit string (Python's `int(value)` applied to the
digits captured by the regex group `(\d+)`, each digit contributing its
decimal value from the table). -/
def decimalVal (decVal : Char → Option Nat) (l : List Char) : Nat :=
  l.foldl (fun acc c => 10 * acc + (decVal c).getD 0) 0

/-- The `unit_multipliers` dictionary lookup; the caller only applies it to
one of `s`/`m`/`h`/`d`. -/
def unitMultiplier (u : Char) : Nat :=
  if u = 's' then 1 else if u = 'm' then 60 else if u = 'h' then 3600 else 86400

/-- Python's `$` (outside MULTILINE mode) matches at the end of the string
or just before one newline that ends the string, so the anchored regex match
of `s` is the strictly end-anchored match of `s` with one trailing `'\n'`
removed. -/
def stripTrailingNewline (s : List Char) : List Char :=
  if s.getLast? = some '\n' then s.dropLast else s

/-- The part of `_parse_time_interval` that runs after the optional sign has
been stripped: the remaining characters must be one or more digits followed
by a unit letter, as in the regex `(\d+)([smhd])`. -/
def parseBody (decVal : Char → Option Nat) (sign : Int) (body : List Char) :
    Option Int :=
  if body.dropLast ≠ [] ∧ body.dropLast.all (fun c => (decVal c).isSome) = true ∧
      (body.getLast? = some 's' ∨ body.getLast? = some 'm' ∨
        body.getLast? = some 'h' ∨ body.getLast? = some 'd')
  then some (sign * (decimalVal decVal body.dropLast : Int) *
    (unitMultiplier (body.getLast?.getD 's') : Int))
  else none

/-- `_parse_time_interval`: `re.match(r'^([+-]?)(\d+)([smhd])$', s)` — one
trailing newline accepted by `$` is removed, then an optional sign, one or
more decimal digits and one unit letter must make up the rest — multiply
the magnitude by the unit multiplier, negate on a `-` sign.  `none` models
the raised `ValueError` ("Invalid time interval format"). -/
def parse_time_interval (decVal : Char → Option Nat) (s : List Char) : Option Int :=
  if (stripTrailingNewline s).head? = some '+'
  then parseBody decVal 1 (stripTrailingNewline s).tail
  else if (stripTrailingNewline s).head? = some '-'
  then parseBody decVal (-1) (stripTrailingNewline s).tail
  else parseBody decVal 1 (stripTrailingNewline s)

/- Spec-side description of the interval format, following §4.1 of the
specification: an optional sign, a non-empty digit string, and one unit
letter with multipliers s=1, m=60, h=3600, d=86400; a missing sign means
positive. -/

/-- Modelled from the spec: the optional sign group of `^[+-]?\d+[smhd]$`. -/
def IsSignPart (sgn : List Char) : Prop := sgn = [] ∨ sgn = ['+'] ∨ sgn = ['-']

/-- Modelled from the spec: the unit letter of `^[+-]?\d+[smhd]$`. -/
def IsUnitChar (u : Char) : Prop := u = 's' ∨ u = 'm' ∨ u = 'h' ∨ u = 'd'

/-- Modelled from the spec: the signed number of seconds denoted by a
decomposed interval string (unit multipliers s=1, m=60, h=3600, d=86400,
missing sign = positive, digit values from the table). -/
def specSeconds (decVal : Char → Option Nat) (sgn : List Char)
    (digits : List Char) (u : Char) : Int :=
  (if sgn = ['-'] then -1 else 1) * (decimalVal decVal digits : Int) *
    (if u = 's' then 1 else if u = 'm' then 60 else if u = 'h' then 3600
     else if u = 'd' then 86400 else 0)

/-- Modelled from the spec: the string matches the strict shape of
`^[+-]?\d+[smhd]$` as §4.1 glosses it — an optional sign, a non-empty digit
string, one unit letter, and nothing else (in particular no trailing
newline). -/
def SpecMatches (decVal : Char → Option Nat) (s : List Char) : Prop :=
  ∃ sgn digits u, s = sgn ++ digits ++ [u] ∧ IsSignPart sgn ∧ digits ≠ [] ∧
    (∀ c ∈ digits, (decVal c).isSome = true) ∧ IsUnitChar u

lemma getLast?_decomp : ∀ (l : List Char) (u : Char), l.getLast? = some u →
    l.dropLast ++ [u] = l
  | [], u, h => by simp at h
  | [a], u, h => by
      simp [List.getLast?] at h
      simp [h]
  | a :: b :: t, u, h => by
      have hrec := getLast?_decomp (b :: t) u (by
        simpa [List.getLast?_cons_cons] using h)
      simpa [List.dropLast] using congrArg (a :: ·) hrec

lemma parseBody_concat (decVal : Char → Option Nat) (sign : Int)
    (digits : List Char) (u : Char) (hd : digits ≠ [])
    (hdig : ∀ c ∈ digits, (decVal c).isSome = true) (hu : IsUnitChar u) :
    parseBody decVal sign (digits ++ [u]) =
      some (sign * (decimalVal decVal digits : Int) * (unitMultiplier u : Int)) := by
  unfold parseBody
  rw [List.getLast?_concat, List.dropLast_concat]
  have hunit : some u = some 's' ∨ some u = some 'm' ∨
      some u = some 'h' ∨ some u = some 'd' := by
    rcases hu with h | h | h | h <;> subst h <;> simp
  rw [if_pos ⟨hd, List.all_eq_true.mpr (fun c hc => hdig c hc), hunit⟩]
  simp

lemma parseBody_some (decVal : Char → Option Nat) (sign : Int)
    (body : List Char) (v : Int) (h : parseBody decVal sign body = some v) :
    ∃ digits u, body = digits ++ [u] ∧ digits ≠ [] ∧
      (∀ c ∈ digits, (decVal c).isSome = true) ∧ IsUnitChar u := by
  unfold parseBody at h
  by_cases hc : body.dropLast ≠ [] ∧
      body.dropLast.all (fun c => (decVal c).isSome) = true ∧
      (body.getLast? = some 's' ∨ body.getLast? = some 'm' ∨
        body.getLast? = some 'h' ∨ body.getLast? = some 'd')
  · obtain ⟨h1, h2, h3⟩ := hc
    have hu : ∃ u, body.getLast? = some u ∧ IsUnitChar u := by
      rcases h3 with h3 | h3 | h3 | h3
      · exact ⟨'s', h3, Or.inl rfl⟩
      · exact ⟨'m', h3, Or.inr (Or.inl rfl)⟩
      · exact ⟨'h', h3, Or.inr (Or.inr (Or.inl rfl))⟩
      · exact ⟨'d', h3, Or.inr (Or.inr (Or.inr rfl))⟩
    obtain ⟨u, hl, hu⟩ := hu
    exact ⟨body.dropLast, u, (getLast?_decomp body u hl).symm, h1,
      fun c hcm => List.all_eq_true.mp h2 c hcm, hu⟩
  · rw [if_neg hc] at h; exact absurd h (by simp)

lemma specSeconds_eq (decVal : Char → Option Nat) (sgn : List Char)
    (digits : List Char) (u : Char) (hu : IsUnitChar u) :
    specSeconds decVal sgn digits u =
      (if sgn = ['-'] then (-1 : Int) else 1) *
        (decimalVal decVal digits : Int) * (unitMultiplier u : Int) := by
  unfold specSeconds unitMultiplier
  rcases hu with h | h | h | h <;> subst h <;> norm_num

/-- C4 counterexample: the claim says every string not matching
`^[+-]?\d+[smhd]$` — per the spec's own gloss an optional sign, an integer
magnitude and one unit letter, nothing else — fails with `InvalidFormat`.
But Python's `$` also matches just before one newline that ends the string,
so the source returns 0 for `"0s\n"`, a string of no such shape. -/
theorem parse_trailing_newline_cex :
    parse_time_interval asciiDigitVal ['0', 's', '\n'] = some 0 ∧
    ¬ SpecMatches asciiDigitVal ['0', 's', '\n'] := by
  constructor
  · decide
  · rintro ⟨sgn, digits, u, hs, hsgn, hd, hdig, hu⟩
    have h1 : (['0', 's', '\n'] : List Char).getLast? = some u := by
      rw [hs]; exact List.getLast?_concat _
    have h2 : u = '\n' := by
      rw [show (['0', 's', '\n'] : List Char).getLast? = some '\n' from rfl] at h1
      exact (Option.some.inj h1).symm
    subst h2
    rcases hu with h | h | h | h <;> exact absurd h (by decide)

/-- C4 (amended): `_parse_time_interval` accepts exactly the strings
matching `^[+-]?\d+[smhd]$` under Python's regex semantics — `\d` is any
Unicode decimal digit (the digit-value table is the `decVal` parameter;
`'+'`/`'-'` are not digits) and `$` also matches just before a single
newline that ends the string.  Every accepted string yields the exact
signed number of seconds with multipliers s=1, m=60, h=3600, d=86400,
digit values from the table and a missing sign meaning positive; every
other string fails with the `InvalidFormat` error, with no partial parsing
and no default value.  The table rows `"0s"→0`, `"-1d"→-86400`, `"+1m"→60`,
`"10h"→36000` and the newline case `"10h\n"→36000` are included. -/
theorem parse_time_interval_py_spec (decVal : Char → Option Nat)
    (hplus : decVal '+' = none) (hminus : decVal '-' = none) (s : List Char) :
    (∀ sgn digits u, stripTrailingNewline s = sgn ++ digits ++ [u] →
      IsSignPart sgn → digits ≠ [] →
      (∀ c ∈ digits, (decVal c).isSome = true) → IsUnitChar u →
      parse_time_interval decVal s = some (specSeconds decVal sgn digits u)) ∧
    (¬ SpecMatches decVal (stripTrailingNewline s) →
      parse_time_interval decVal s = none) ∧
    parse_time_interval asciiDigitVal ['0', 's'] = some 0 ∧
    parse_time_interval asciiDigitVal ['-', '1', 'd'] = some (-86400) ∧
    parse_time_interval asciiDigitVal ['+', '1', 'm'] = some 60 ∧
    parse_time_interval asciiDigitVal ['1', '0', 'h'] = some 36000 ∧
    parse_time_interval asciiDigitVal ['1', '0', 'h', '\n'] = some 36000 := by
  refine ⟨?_, ?_, by decide, by decide, by decide, by decide, by decide⟩
  · intro sgn digits u hs hsgn hd hdig hu
    rw [specSeconds_eq decVal sgn digits u hu]
    unfold parse_time_interval
    rw [hs]
    rcases hsgn with h | h | h
    · subst h
      simp only [List.nil_append]
      cases hds : digits with
      | nil => exact absurd hds hd
      | cons d ds =>
        subst hds
        have hdd : (decVal d).isSome = true := hdig d (by simp)
        have hdp : d ≠ '+' := by
          intro hc; rw [hc, hplus] at hdd; exact absurd hdd (by decide)
        have hdm : d ≠ '-' := by
          intro hc; rw [hc, hminus] at hdd; exact absurd hdd (by decide)
        simp only [List.cons_append, List.head?_cons]
        rw [if_neg (by simpa using hdp), if_neg (by simpa using hdm)]
        rw [show (d :: (ds ++ [u])) = ((d :: ds) ++ [u]) from rfl]
        rw [parseBody_concat decVal 1 (d :: ds) u hd hdig hu]
        rw [if_neg (show ([] : List Char) ≠ ['-'] by decide)]
    · subst h
      simp only [List.cons_append, List.nil_append, List.head?_cons, List.tail_cons]
      rw [if_pos trivial]
      rw [parseBody_concat decVal 1 digits u hd hdig hu]
      rw [if_neg (show (['+'] : List Char) ≠ ['-'] by decide)]
    · subst h
      simp only [List.cons_append, List.nil_append, List.head?_cons, List.tail_cons,
        if_true]
      exact parseBody_concat decVal (-1) digits u hd hdig hu
  · intro hno
    cases hp : parse_time_interval decVal s with
    | none => rfl
    | some v =>
      exfalso
      apply hno
      unfold parse_time_interval at hp
      generalize hgen : stripTrailingNewline s = t at hp ⊢
      by_cases hpl : t.head? = some '+'
      · rw [if_pos hpl] at hp
        obtain ⟨digits, u, hb, hd, hdig, hu⟩ := parseBody_some decVal 1 t.tail v hp
        have hsc : t = '+' :: t.tail := by
          cases t with
          | nil => simp at hpl
          | cons c rest =>
            simp only [List.head?_cons, Option.some.injEq] at hpl
            simp [hpl]
        exact ⟨['+'], digits, u, by rw [hsc, hb]; rfl, Or.inr (Or.inl rfl), hd, hdig, hu⟩
      · rw [if_neg hpl] at hp
        by_cases hmi : t.head? = some '-'
        · rw [if_pos hmi] at hp
          obtain ⟨digits, u, hb, hd, hdig, hu⟩ := parseBody_some decVal (-1) t.tail v hp
          have hsc : t = '-' :: t.tail := by
            cases t with
            | nil => simp at hmi
            | cons c rest =>
              simp only [List.head?_cons, Option.some.injEq] at hmi
              simp [hmi]
          exact ⟨['-'], digits, u, by rw [hsc, hb]; rfl, Or.inr (Or.inr rfl), hd, hdig, hu⟩
        · rw [if_neg hmi] at hp
          obtain ⟨digits, u, hb, hd, hdig, hu⟩ := parseBody_some decVal 1 t v hp
          exact ⟨[], digits, u, by simp [hb], Or.inl rfl, hd, hdig, hu⟩

/-- C4 witness: the amended theorem applied to the ASCII digit table and
the concrete string `"10h\n"` (exercising the trailing-newline path). -/
theorem parse_time_interval_py_spec_witness :
    parse_time_interval asciiDigitVal ['1', '0', 'h', '\n'] =
      some (specSeconds asciiDigitVal [] ['1', '0'] 'h') :=
  (parse_time_interval_py_spec asciiDigitVal (by decide) (by decide)
      ['1', '0', 'h', '\n']).1 [] ['1', '0'] 'h' (by decide) (Or.inl rfl)
    (by decide) (by decide) (Or.inr (Or.inr (Or.inl rfl)))

/- ------------------------------------------------------------------ -/
/- `session_clickstream` (clickstream.py lines 53-167)                 -/
/- ------------------------------------------------------------------ -/

/-- Outcomes of all random draws made during one call to
`session_clickstream`, indexed by the loop step `s` where the draw happens.
Each field models one Python primitive; range facts guaranteed by the
primitive (`randint(a, b)` lies in `[a, b]`, `np.random.pareto` is
non-negative, `random.choices` returns a list index, ...) are taken as
hypotheses where a theorem needs them. -/
structure Oracle where
  /-- `_get_user_id(end=max_user_id)` at line 68: the initial user id. -/
  initUserId : Nat
  /-- `randint(1, rand_session_max_size)` at line 73. -/
  sessionSize : Nat
  /-- `np.random.pareto(a)` at line 89. -/
  paretoOffset : Nat → ℚ
  /-- index of the entry returned by `self.weighted_event()` at line 93. -/
  eventIdx : Nat → Nat
  /-- `_get_user_id(start=1, end=max_user_id)` at line 104. -/
  promoteUserId : Nat → Nat
  /-- index of the entry returned by `_get_weighted_mobile_phone()` (line 136). -/
  phoneIdx : Nat → Nat
  /-- index of the field picked by `choice((model_name, brand_name, os))` (line 137). -/
  queryField : Nat → Nat
  /-- `_get_product_code(max_product_code)` at line 142. -/
  productCode : Nat → Nat
  /-- `_get_quantity()` at line 143. -/
  quantity : Nat → Nat
  /-- index picked by `choice(list(product_codes))` at line 148. -/
  deleteIdx : Nat → Nat
  /-- `_get_order_id(max_order_id)` at line 153. -/
  orderId : Nat → Nat

/-- The session-constant fields drawn once at lines 69-72 (`user_agent`,
`session_id`, `ip`, `channel_type`); their generators are uniform draws over
external string lists, so they enter the model as opaque values. -/
structure StaticCtx where
  ip : String
  userAgent : String
  sessionId : String
  channel : String
deriving DecidableEq

/-- The mutable state of the generation loop: the module-level
`weighted_events` list (mutable because the loop writes
`event['name'] = 'Search'` through an alias into it), `user_id`,
`unique_session_events`, `product_codes` (Python sets, modelled as
duplicate-free lists in insertion order) and the running clock
`current_event_time`. -/
structure SessionState where
  catalog : List EventDef
  userId : Nat
  uniqueSessionEvents : List String
  productCodes : List Nat
  clock : ℚ
deriving DecidableEq

/-- Python `set.add`: append the element unless it is already present. -/
def addUnique {α : Type} [DecidableEq α] (l : List α) (x : α) : List α :=
  if x ∈ l then l else l ++ [x]

/-- `choice(list(s))` over a non-empty set modelled as a list: the oracle
index is reduced modulo the length, so every element is reachable. -/
def pickNat (l : List Nat) (i : Nat) : Nat := l.getD (i % l.length) 0

/-- The default used when reading past the end of a catalog list; with the
oracle index reduced modulo the length it is never the value actually read
from a non-empty catalog. -/
def defaultEventDef : EventDef := ⟨"", 0, [], ""⟩

/-- index into the current catalog of the entry picked by
`self.weighted_event()` at step `s` (line 93). -/
def pickedIdx (o : Oracle) (s : Nat) (st : SessionState) : Nat :=
  o.eventIdx s % st.catalog.length

/-- the `event` dictionary picked at step `s`, read from the current
(possibly already mutated) catalog. -/
def pickedEvent (o : Oracle) (s : Nat) (st : SessionState) : EventDef :=
  st.catalog.getD (pickedIdx o s st) defaultEventDef

/-- lines 95-100: substitute a repeated `Login`, or a `CheckoutAsGuest` of a
non-anonymous user, by `Search`. -/
def candName1 (ev : EventDef) (seen : List String) (userId : Nat) : String :=
  if (ev.name = "Login" ∧ ev.name ∈ seen) ∨ (ev.name = "CheckoutAsGuest" ∧ userId ≠ 0)
  then "Search" else ev.name

/-- lines 102-104: on a `Login` draw while `user_id == 0`, regenerate the
user id (the `fresh` argument is the `_get_user_id(start=1, ...)` draw). -/
def promotedUserId (name1 : String) (userId : Nat) (fresh : Nat) : Nat :=
  if name1 = "Login" ∧ userId = 0 then fresh else userId

/-- lines 106-108: substitute `Login` of a logged-in user, or `Logout` of an
anonymous user, by `Search`. -/
def candName2 (name1 : String) (userId : Nat) : String :=
  if (name1 = "Login" ∧ userId ≠ 0) ∨ (name1 = "Logout" ∧ userId = 0)
  then "Search" else name1

/-- lines 115-119: combine the membership checks of the dependency names via
`all` or `any` according to `dependencyFilter`. -/
def depSatisfied (ev : EventDef) (seen : List String) : Bool :=
  if ev.dependencyFilter = "all"
  then ev.dependsOn.all (fun d => seen.contains d)
  else ev.dependsOn.any (fun d => seen.contains d)

/-- lines 114-122: substitute an event with an unmet dependency by `Search`.
Note the membership check runs against `unique_session_events` as updated at
line 111, i.e. after the candidate's own name was already added. -/
def candName3 (ev : EventDef) (name2 : String) (seen1 : List String) : String :=
  if ev.dependsOn ≠ [] ∧ depSatisfied ev seen1 = false then "Search" else name2

/-- lines 124-131: a `CompleteOrder` removes `Checkout`, `CheckoutAsGuest`
and `DecreaseQuantity` from `unique_session_events`. -/
def removeCompleted (name3 : String) (seen : List String) : List String :=
  if name3 = "CompleteOrder"
  then ((seen.erase "Checkout").erase "CheckoutAsGuest").erase "DecreaseQuantity"
  else seen

/-- lines 136-139: the `query` value of a `Search` event, one of the three
fields of a popularity-weighted mobile-phone draw. -/
def searchQuery (phones : List MobilePhone) (pIdx fIdx : Nat) : String :=
  let p := phones.getD (pIdx % phones.length) ⟨"", "", "", 0⟩
  [p.model_name, p.brand_name, p.os].getD (fIdx % 3) ""

/-- lines 133-153 (the `metadata` dictionary): filled conditionally on the
final event name.  The four guarding names are pairwise distinct, so at most
one branch fires. -/
def stepMetadata (phones : List MobilePhone) (o : Oracle) (s : Nat)
    (name3 : String) (pcs : List Nat) : Metadata :=
  let md1 : Metadata :=
    if name3 = "Search"
    then { query := some (searchQuery phones (o.phoneIdx s) (o.queryField s)) }
    else {}
  let md2 : Metadata :=
    if name3 = "AddToCart" ∨ name3 = "IncreaseQuantity"
    then { md1 with product_id := some (o.productCode s), quantity := some (o.quantity s) }
    else md1
  let pcs1 : List Nat :=
    if name3 = "AddToCart" ∨ name3 = "IncreaseQuantity"
    then addUnique pcs (o.productCode s) else pcs
  let md3 : Metadata :=
    if name3 = "DeleteFromCart" ∧ pcs1 ≠ []
    then { md2 with product_id := some (pickNat pcs1 (o.deleteIdx s)) }
    else md2
  if name3 = "CheckOrderStatus"
  then { md3 with order_id := some (o.orderId s) } else md3

/-- lines 141-150 (the `product_codes` set): `AddToCart`/`IncreaseQuantity`
add the drawn product code; a `DeleteFromCart` with a non-empty set removes
the picked element, and with an empty set is a no-op. -/
def newProductCodes (o : Oracle) (s : Nat) (name3 : String) (pcs : List Nat) :
    List Nat :=
  let pcs1 : List Nat :=
    if name3 = "AddToCart" ∨ name3 = "IncreaseQuantity"
    then addUnique pcs (o.productCode s) else pcs
  if name3 = "DeleteFromCart" ∧ pcs1 ≠ []
  then pcs1.erase (pickNat pcs1 (o.deleteIdx s)) else pcs1

/-- the `user_id` in force when the record of step `s` is built (line 158):
the possibly regenerated one. -/
def stepUserId (o : Oracle) (s : Nat) (st : SessionState) : Nat :=
  promotedUserId (candName1 (pickedEvent o s st) st.uniqueSessionEvents st.userId)
    st.userId (o.promoteUserId s)

/-- the candidate name after the two `Login`/`CheckoutAsGuest`/`Logout`
substitution blocks (lines 95-108). -/
def stepName2 (o : Oracle) (s : Nat) (st : SessionState) : String :=
  candName2 (candName1 (pickedEvent o s st) st.uniqueSessionEvents st.userId)
    (stepUserId o s st)

/-- `unique_session_events` right after the `add` at line 111. -/
def stepSeen1 (o : Oracle) (s : Nat) (st : SessionState) : List String :=
  addUnique st.uniqueSessionEvents (stepName2 o s st)

/-- the final event name of step `s` (after the dependency substitution at
lines 114-122); this is the `event_name` of the emitted record. -/
def stepName3 (o : Oracle) (s : Nat) (st : SessionState) : String :=
  candName3 (pickedEvent o s st) (stepName2 o s st) (stepSeen1 o s st)

/-- lines 87-90: the clock advances by the Pareto draw on every step except
the last one. -/
def stepClock (o : Oracle) (size : Nat) (s : Nat) (st : SessionState) : ℚ :=
  if s < size - 1 then st.clock + o.paretoOffset s else st.clock

/-- One iteration of the loop at lines 83-166: returns the updated state and
the emitted record.  The catalog update models the in-place mutation
`event['name'] = 'Search'` of the picked entry (a no-op write of the
original name when no substitution fired). -/
def sessionStep (phones : List MobilePhone) (o : Oracle) (size : Nat)
    (ctx : StaticCtx) (s : Nat) (st : SessionState) : SessionState × EventRecord :=
  ({ catalog := st.catalog.set (pickedIdx o s st)
        { pickedEvent o s st with name := stepName3 o s st },
     userId := stepUserId o s st,
     uniqueSessionEvents := removeCompleted (stepName3 o s st) (stepSeen1 o s st),
     productCodes := newProductCodes o s (stepName3 o s st) st.productCodes,
     clock := stepClock o size s st },
   { ip := ctx.ip,
     user_id := stepUserId o s st,
     user_agent := ctx.userAgent,
     session_id := ctx.sessionId,
     event_time := st.clock,
     event_name := stepName3 o s st,
     channel := ctx.channel,
     metadata := stepMetadata phones o s (stepName3 o s st) st.productCodes })

/-- The loop `for s in range(random_session_size)`, with `s` the current step
index and `fuel` the number of remaining iterations. -/
def runSteps (phones : List MobilePhone) (o : Oracle) (size : Nat)
    (ctx : StaticCtx) : Nat → Nat → SessionState → List EventRecord × SessionState
  | _, 0, st => ([], st)
  | s, fuel + 1, st =>
    let p := sessionStep phones o size ctx s st
    let q := runSteps phones o size ctx (s + 1) fuel p.1
    (p.2 :: q.1, q.2)

/-- The state built at lines 67-81: initial user id, the catalog as imported,
empty `unique_session_events` and `product_codes`, and the clock at
`datetime.now() + timedelta(seconds=start_offset_seconds)`. -/
def initState (catalog : List EventDef) (o : Oracle) (now : ℚ) (off : Int) :
    SessionState :=
  { catalog := catalog, userId := o.initUserId, uniqueSessionEvents := [],
    productCodes := [], clock := now + (off : ℚ) }

/-- `session_clickstream`: parse the start-time offset (a failure, `none`,
models the raised `ValueError`), then run the loop `sessionSize` times.
`decVal` is the Unicode digit table the parser consults.  The final
`SessionState` is returned alongside the records so that the fate of the
module-level `weighted_events` catalog stays observable. -/
def sessionRun (decVal : Char → Option Nat) (catalog : List EventDef)
    (phones : List MobilePhone) (o : Oracle) (ctx : StaticCtx) (now : ℚ)
    (start_time : List Char) : Option (List EventRecord × SessionState) :=
  match parse_time_interval decVal start_time with
  | none => none
  | some off =>
    some (runSteps phones o o.sessionSize ctx 0 o.sessionSize
      (initState catalog o now off))

/-- The list returned by `session_clickstream` (`session_events`). -/
def session_clickstream (decVal : Char → Option Nat) (catalog : List EventDef)
    (phones : List MobilePhone) (o : Oracle) (ctx : StaticCtx) (now : ℚ)
    (start_time : List Char) : Option (List EventRecord) :=
  (sessionRun decVal catalog phones o ctx now start_time).map Prod.fst

/-- The record list of a run, with a failed run contributing no records. -/
def recordsOf (x : Option (List EventRecord × SessionState)) : List EventRecord :=
  match x with
  | none => []
  | some p => p.1

/- ------------------------------------------------------------------ -/
/- Concrete fixtures for the counterexample evaluations                -/
/- ------------------------------------------------------------------ -/

/-- Session-constant values for the concrete runs. -/
def ctx0 : StaticCtx := ⟨"1.2.3.4", "agent", "sid", "Direct"⟩

/-- An oracle describing one concrete sequence of draws: session of one
event, initial user id 0, every pick at index 0, a regenerated user id of 7.
All values are legal outcomes of the corresponding Python draws. -/
def baseOracle : Oracle :=
  ⟨0, 1, fun _ => 0, fun _ => 0, fun _ => 7, fun _ => 0, fun _ => 0,
    fun _ => 1, fun _ => 1, fun _ => 0, fun _ => 1⟩

/-- `baseOracle` with an initially logged-in user (user id 5). -/
def oracleUid5 : Oracle :=
  ⟨5, 1, fun _ => 0, fun _ => 0, fun _ => 7, fun _ => 0, fun _ => 0,
    fun _ => 1, fun _ => 1, fun _ => 0, fun _ => 1⟩

/-- `baseOracle` with two steps and a Pareto gap of half a second (a legal
`np.random.pareto` sample, whose support is `[0, ∞)`). -/
def oracleHalf : Oracle :=
  ⟨5, 2, fun _ => (1 : ℚ) / 2, fun _ => 0, fun _ => 7, fun _ => 0, fun _ => 0,
    fun _ => 1, fun _ => 1, fun _ => 0, fun _ => 1⟩

/-- A one-entry catalog whose event is `Login`. -/
def loginCatalog : List EventDef := [⟨"Login", 1, [], "all"⟩]

/-- A one-entry catalog whose event is `Logout`. -/
def logoutCatalog : List EventDef := [⟨"Logout", 1, [], "all"⟩]

/-- A one-entry catalog whose event is `Checkout`, which depends on a
preceding `AddToCart` (as in the shipped `weighted_events` table). -/
def checkoutCatalog : List EventDef := [⟨"Checkout", 1, ["AddToCart"], "all"⟩]

/-- A one-entry catalog whose event is `Search`. -/
def searchCatalog : List EventDef := [⟨"Search", 1, [], "all"⟩]

/-- A one-entry catalog whose event is `DeleteFromCart`. -/
def deleteCatalog : List EventDef := [⟨"DeleteFromCart", 1, [], "all"⟩]

/-- C1: the claim says that on a `Login` draw with `user_id == 0` the event
is NOT substituted and the emitted record keeps `event_name = "Login"` while
a fresh user id is adopted.  Evaluating the code at that exact situation (a
one-step session, catalog entry `Login`, initial user id 0, regenerated user
id 7) shows the promotion does happen but the record is emitted as `Search`:
the check `event['name'] == 'Login' and user_id != 0` at line 106 runs after
the promotion at line 104 and therefore always substitutes the promoted
`Login`. -/
theorem login_promotion_substituted_cex :
    (recordsOf (sessionRun asciiDigitVal loginCatalog [] baseOracle ctx0 0 ['0', 's'])).map
        (fun r => (r.event_name, r.user_id)) = [("Search", 7)] ∧
      ("Search", 7) ≠ ("Login", 7) := by
  constructor
  · rfl
  · simp

/-- C2: the claim says the weighted-event table is unchanged by a call to
`session_clickstream`.  Evaluating the code on a one-step session that draws
`Logout` while `user_id == 0` shows the substitution `event['name'] =
'Search'` writes through the alias into the module-level catalog: after the
call the `Logout` entry has been renamed to `Search`. -/
theorem catalog_mutation_cex :
    (sessionRun asciiDigitVal logoutCatalog [] baseOracle ctx0 0 ['0', 's']).map
        (fun p => p.2.catalog) = some [⟨"Search", 1, [], "all"⟩] ∧
      logoutCatalog ≠ [⟨"Search", 1, [], "all"⟩] := by
  constructor
  · rfl
  · simp [logoutCatalog]

/-- C3 counterexample: the claim says the name added to
`unique_session_events` equals the `event_name` of the emitted record.  In a
one-step session drawing `Checkout` (which depends on `AddToCart`, not yet
seen), the emitted record is `Search` but `unique_session_events` holds
`Checkout`: the `add` at line 111 runs before the dependency substitution at
lines 114-122. -/
theorem seen_event_name_mismatch_cex :
    (sessionRun asciiDigitVal checkoutCatalog [] oracleUid5 ctx0 0 ['0', 's']).map
        (fun p => (p.1.map (fun r => r.event_name), p.2.uniqueSessionEvents)) =
      some (["Search"], ["Checkout"]) ∧
      ("Checkout" : String) ≠ "Search" := by
  constructor
  · rfl
  · simp

/-- C7 counterexample: the claim says consecutive records of a multi-event
session are at least one second apart.  `np.random.pareto` has minimum value
0, not 1; with a legal Pareto sample of `1/2` the two records of a two-step
session are half a second apart. -/
theorem pareto_gap_below_one_cex :
    (sessionRun asciiDigitVal searchCatalog [] oracleHalf ctx0 0 ['0', 's']).map
        (fun p => p.1.map (fun r => r.event_time)) = some [0, 1 / 2] ∧
      ¬ (1 ≤ (1 / 2 : ℚ) - 0) := by
  constructor
  · have hp : parse_time_interval asciiDigitVal ['0', 's'] = some 0 := by decide
    unfold sessionRun
    simp only [hp]
    rw [show oracleHalf.sessionSize = 1 + 1 from rfl]
    simp only [runSteps, sessionStep, stepClock, initState, List.map_cons, List.map_nil,
      Option.map_some']
    norm_num [oracleHalf]
  · norm_num

/- ------------------------------------------------------------------ -/
/- Generic facts about the loop                                        -/
/- ------------------------------------------------------------------ -/

section LoopLemmas

variable (phones : List MobilePhone) (o : Oracle) (size : Nat) (ctx : StaticCtx)

lemma runSteps_length : ∀ (fuel s : Nat) (st : SessionState),
    ((runSteps phones o size ctx s fuel st).1).length = fuel := by
  intro fuel
  induction fuel with
  | zero => intro s st; rfl
  | succ n ih => intro s st; simp [runSteps, ih]

lemma runSteps_records_inv (I : SessionState → Prop) (P : EventRecord → Prop)
    (hstep : ∀ s st, I st → I (sessionStep phones o size ctx s st).1 ∧
      P (sessionStep phones o size ctx s st).2) :
    ∀ (fuel s : Nat) (st : SessionState), I st →
      ∀ r ∈ (runSteps phones o size ctx s fuel st).1, P r := by
  intro fuel
  induction fuel with
  | zero => intro s st _ r hr; simp [runSteps] at hr
  | succ n ih =>
    intro s st hI r hr
    simp only [runSteps, List.mem_cons] at hr
    rcases hr with h | h
    · subst h; exact (hstep s st hI).2
    · exact ih (s + 1) _ (hstep s st hI).1 r h

lemma runSteps_chain_head (R : EventRecord → EventRecord → Prop)
    (Q : SessionState → EventRecord → Prop)
    (hQ : ∀ s st, Q st (sessionStep phones o size ctx s st).2)
    (hQR : ∀ s st b, Q (sessionStep phones o size ctx s st).1 b →
      R (sessionStep phones o size ctx s st).2 b) :
    ∀ (fuel s : Nat) (st : SessionState),
      ((runSteps phones o size ctx s fuel st).1).Chain' R ∧
      (∀ b ∈ ((runSteps phones o size ctx s fuel st).1).head?, Q st b) := by
  intro fuel
  induction fuel with
  | zero =>
    intro s st
    refine ⟨by simp [runSteps], ?_⟩
    intro b hb; simp [runSteps] at hb
  | succ n ih =>
    intro s st
    have hrec := ih (s + 1) (sessionStep phones o size ctx s st).1
    constructor
    · show ((sessionStep phones o size ctx s st).2 ::
        (runSteps phones o size ctx (s + 1) n (sessionStep phones o size ctx s st).1).1).Chain' R
      refine List.chain'_cons'.mpr ⟨?_, hrec.1⟩
      intro b hb
      exact hQR s st b (hrec.2 b hb)
    · intro b hb
      simp only [runSteps, List.head?_cons, Option.mem_def, Option.some.injEq] at hb
      subst hb
      exact hQ s st

end LoopLemmas

/- ------------------------------------------------------------------ -/
/- C5: session length                                                  -/
/- ------------------------------------------------------------------ -/

/-- C5: with `maxEventsPerSession >= 1` the session length is the
`randint(1, maxEventsPerSession)` draw (uniform, modelled by the oracle
hypotheses `1 ≤ sessionSize ≤ maxEventsPerSession`), and the returned
sequence contains exactly that many records, so its length lies in
`[1, maxEventsPerSession]` and the loop runs exactly `sessionSize` times. -/
theorem session_length_bounds (decVal : Char → Option Nat) (catalog : List EventDef) (phones : List MobilePhone)
    (o : Oracle) (ctx : StaticCtx) (now : ℚ) (start : List Char) (m : Nat)
    (h1 : 1 ≤ o.sessionSize) (h2 : o.sessionSize ≤ m)
    (hp : (parse_time_interval decVal start).isSome = true) :
    (recordsOf (sessionRun decVal catalog phones o ctx now start)).length = o.sessionSize ∧
    1 ≤ (recordsOf (sessionRun decVal catalog phones o ctx now start)).length ∧
    (recordsOf (sessionRun decVal catalog phones o ctx now start)).length ≤ m := by
  cases hpt : parse_time_interval decVal start with
  | none => rw [hpt] at hp; simp at hp
  | some off =>
    have hrun : recordsOf (sessionRun decVal catalog phones o ctx now start) =
        (runSteps phones o o.sessionSize ctx 0 o.sessionSize
          (initState catalog o now off)).1 := by
      unfold sessionRun; rw [hpt]; rfl
    rw [hrun, runSteps_length]
    exact ⟨rfl, h1, h2⟩

/-- C5 witness: a one-step run with `maxEventsPerSession = 1`. -/
theorem session_length_bounds_witness :
    (recordsOf (sessionRun asciiDigitVal searchCatalog [] baseOracle ctx0 0 ['0', 's'])).length = 1 ∧
    1 ≤ (recordsOf (sessionRun asciiDigitVal searchCatalog [] baseOracle ctx0 0 ['0', 's'])).length ∧
    (recordsOf (sessionRun asciiDigitVal searchCatalog [] baseOracle ctx0 0 ['0', 's'])).length ≤ 1 :=
  session_length_bounds asciiDigitVal searchCatalog [] baseOracle ctx0 0 ['0', 's'] 1
    (le_refl 1) (le_refl 1) (by decide)

/- ------------------------------------------------------------------ -/
/- C6: event times never regress                                       -/
/- ------------------------------------------------------------------ -/

lemma stepClock_mono (o : Oracle) (size s : Nat) (st : SessionState)
    (h : 0 ≤ o.paretoOffset s) : st.clock ≤ stepClock o size s st := by
  unfold stepClock
  split
  · exact le_add_of_nonneg_right h
  · exact le_refl _

/-- C6: when every Pareto sample is non-negative (which `np.random.pareto`
guarantees), the `event_time` values of the emitted records are
non-decreasing along the session: each consecutive pair satisfies
`earlier ≤ later`. -/
theorem event_time_monotone (decVal : Char → Option Nat) (catalog : List EventDef) (phones : List MobilePhone)
    (o : Oracle) (ctx : StaticCtx) (now : ℚ) (start : List Char)
    (hpar : ∀ s, 0 ≤ o.paretoOffset s) :
    (recordsOf (sessionRun decVal catalog phones o ctx now start)).Chain'
      (fun a b => a.event_time ≤ b.event_time) := by
  cases hpt : parse_time_interval decVal start with
  | none => unfold sessionRun recordsOf; rw [hpt]; simp
  | some off =>
    have hrun : recordsOf (sessionRun decVal catalog phones o ctx now start) =
        (runSteps phones o o.sessionSize ctx 0 o.sessionSize
          (initState catalog o now off)).1 := by
      unfold sessionRun; rw [hpt]; rfl
    rw [hrun]
    refine (runSteps_chain_head phones o o.sessionSize ctx
      (fun a b => a.event_time ≤ b.event_time)
      (fun st r => st.clock ≤ r.event_time) ?_ ?_ o.sessionSize 0 _).1
    · intro s st
      exact le_refl st.clock
    · intro s st b hb
      exact le_trans (stepClock_mono o o.sessionSize s st (hpar s)) hb

/-- C6 witness: the two-step half-second-gap run has non-decreasing times. -/
theorem event_time_monotone_witness :
    (recordsOf (sessionRun asciiDigitVal searchCatalog [] oracleHalf ctx0 0 ['0', 's'])).Chain'
      (fun a b => a.event_time ≤ b.event_time) :=
  event_time_monotone asciiDigitVal searchCatalog [] oracleHalf ctx0 0 ['0', 's']
    (fun _ => by norm_num [oracleHalf])

/- ------------------------------------------------------------------ -/
/- C7 (amended): the per-step clock advance                            -/
/- ------------------------------------------------------------------ -/

/-- C7 (amended): at every step that is not the final one the clock advances
by exactly the `np.random.pareto(a)` sample of that step, which is
non-negative but — the support of numpy's Pareto being `[0, ∞)`, minimum 0 —
may be smaller than 1, so consecutive event times never regress but can be
less than one second apart; at the final step the clock is not advanced, and
the record emitted at a step carries the clock value from before the
advance. -/
theorem clock_advance_per_step (phones : List MobilePhone) (o : Oracle)
    (size : Nat) (ctx : StaticCtx) (s : Nat) (st : SessionState)
    (h : 0 ≤ o.paretoOffset s) :
    (s < size - 1 →
      (sessionStep phones o size ctx s st).1.clock = st.clock + o.paretoOffset s) ∧
    (¬ s < size - 1 → (sessionStep phones o size ctx s st).1.clock = st.clock) ∧
    st.clock ≤ (sessionStep phones o size ctx s st).1.clock ∧
    (sessionStep phones o size ctx s st).2.event_time = st.clock := by
  refine ⟨?_, ?_, stepClock_mono o size s st h, rfl⟩
  · intro hs
    show stepClock o size s st = _
    unfold stepClock
    rw [if_pos hs]
  · intro hs
    show stepClock o size s st = _
    unfold stepClock
    rw [if_neg hs]

/-- C7 witness: the amended statement at a concrete non-final and final
step of a two-step session. -/
theorem clock_advance_per_step_witness :
    (sessionStep [] oracleHalf 2 ctx0 0 ⟨searchCatalog, 5, [], [], 0⟩).1.clock =
        0 + oracleHalf.paretoOffset 0 ∧
    (sessionStep [] oracleHalf 2 ctx0 1 ⟨searchCatalog, 5, [], [], 0⟩).1.clock = 0 := by
  constructor
  · exact (clock_advance_per_step [] oracleHalf 2 ctx0 0 ⟨searchCatalog, 5, [], [], 0⟩
      (by norm_num [oracleHalf])).1 (by norm_num)
  · exact ((clock_advance_per_step [] oracleHalf 2 ctx0 1 ⟨searchCatalog, 5, [], [], 0⟩
      (by norm_num [oracleHalf])).2.1) (by norm_num)

/- ------------------------------------------------------------------ -/
/- C8: login/logout discipline                                         -/
/- ------------------------------------------------------------------ -/

lemma candName2_ne_login (n1 : String) (userId fresh : Nat) (hf : 1 ≤ fresh) :
    candName2 n1 (promotedUserId n1 userId fresh) ≠ "Login" := by
  have hne : ("Search" : String) ≠ "Login" := by decide
  unfold candName2
  by_cases hc : (n1 = "Login" ∧ promotedUserId n1 userId fresh ≠ 0) ∨
      (n1 = "Logout" ∧ promotedUserId n1 userId fresh = 0)
  · rw [if_pos hc]; exact hne
  · rw [if_neg hc]
    intro hn1
    apply hc
    left
    refine ⟨hn1, ?_⟩
    subst hn1
    unfold promotedUserId
    by_cases hu : userId = 0
    · rw [if_pos ⟨rfl, hu⟩]; omega
    · rw [if_neg (fun hx => hu hx.2)]; exact hu

lemma stepUserId_eq (o : Oracle) (s : Nat) (st : SessionState) :
    candName2 (candName1 (pickedEvent o s st) st.uniqueSessionEvents st.userId)
      (promotedUserId (candName1 (pickedEvent o s st) st.uniqueSessionEvents st.userId)
        st.userId (o.promoteUserId s)) = stepName2 o s st := rfl

lemma stepName2_ne_login (o : Oracle) (s : Nat) (st : SessionState)
    (hf : 1 ≤ o.promoteUserId s) : stepName2 o s st ≠ "Login" := by
  rw [← stepUserId_eq]
  exact candName2_ne_login _ st.userId (o.promoteUserId s) hf

lemma stepName3_ne_login (o : Oracle) (s : Nat) (st : SessionState)
    (hf : 1 ≤ o.promoteUserId s) : stepName3 o s st ≠ "Login" := by
  unfold stepName3 candName3
  split
  · decide
  · exact stepName2_ne_login o s st hf

lemma candName2_logout (n1 : String) (userId : Nat)
    (h : candName2 n1 userId = "Logout") : userId ≠ 0 := by
  unfold candName2 at h
  by_cases hc : (n1 = "Login" ∧ userId ≠ 0) ∨ (n1 = "Logout" ∧ userId = 0)
  · rw [if_pos hc] at h
    exact absurd h (by decide)
  · rw [if_neg hc] at h
    intro h0
    exact hc (Or.inr ⟨h, h0⟩)

lemma stepName3_logout (o : Oracle) (s : Nat) (st : SessionState)
    (h : stepName3 o s st = "Logout") : stepUserId o s st ≠ 0 := by
  unfold stepName3 candName3 at h
  have h2 : stepName2 o s st = "Logout" := by
    rcases (em _) with hc | hc
    · rw [if_pos hc] at h; exact absurd h (by decide)
    · rw [if_neg hc] at h; exact h
  unfold stepName2 at h2
  exact candName2_logout _ _ h2

/-- C8: in every generated session at most one record has `event_name =
"Login"` (the code in fact never emits one: a `Login` draw is always
substituted, see C1), and every record with `event_name = "Logout"` carries
a nonzero `user_id`, i.e. it comes after a point of the session at which the
user identity became established (a nonzero initial draw or a `Login`
promotion) — `Logout` of an anonymous user is substituted at line 106.  The
hypothesis models that `_get_user_id(start=1, ...)` returns at least 1. -/
theorem login_logout_discipline (decVal : Char → Option Nat) (catalog : List EventDef)
    (phones : List MobilePhone) (o : Oracle) (ctx : StaticCtx) (now : ℚ)
    (start : List Char) (hf : ∀ s, 1 ≤ o.promoteUserId s) :
    (recordsOf (sessionRun decVal catalog phones o ctx now start)).countP
        (fun r => r.event_name == "Login") ≤ 1 ∧
    ∀ r ∈ recordsOf (sessionRun decVal catalog phones o ctx now start),
      r.event_name = "Logout" → r.user_id ≠ 0 := by
  have hall : ∀ r ∈ recordsOf (sessionRun decVal catalog phones o ctx now start),
      r.event_name ≠ "Login" ∧ (r.event_name = "Logout" → r.user_id ≠ 0) := by
    cases hpt : parse_time_interval decVal start with
    | none => unfold sessionRun recordsOf; rw [hpt]; simp
    | some off =>
      have hrun : recordsOf (sessionRun decVal catalog phones o ctx now start) =
          (runSteps phones o o.sessionSize ctx 0 o.sessionSize
            (initState catalog o now off)).1 := by
        unfold sessionRun; rw [hpt]; rfl
      rw [hrun]
      refine runSteps_records_inv phones o o.sessionSize ctx (fun _ => True)
        (fun r => r.event_name ≠ "Login" ∧ (r.event_name = "Logout" → r.user_id ≠ 0))
        ?_ o.sessionSize 0 _ trivial
      intro s st _
      refine ⟨trivial, stepName3_ne_login o s st (hf s), ?_⟩
      intro hlo
      exact stepName3_logout o s st hlo
  constructor
  · have hz : (recordsOf (sessionRun decVal catalog phones o ctx now start)).countP
        (fun r => r.event_name == "Login") = 0 := by
      rw [List.countP_eq_zero]
      intro r hr
      simpa using (hall r hr).1
    omega
  · exact fun r hr => (hall r hr).2

/-- C8 witness: a session emitting a `Logout` of an initially logged-in
user, and a session that draws `Login` (which the code substitutes). -/
theorem login_logout_discipline_witness :
    (recordsOf (sessionRun asciiDigitVal logoutCatalog [] oracleUid5 ctx0 0 ['0', 's'])).countP
        (fun r => r.event_name == "Login") ≤ 1 ∧
    ((recordsOf (sessionRun asciiDigitVal logoutCatalog [] oracleUid5 ctx0 0 ['0', 's'])).get
        ⟨0, by decide⟩).user_id ≠ 0 := by
  have h := login_logout_discipline asciiDigitVal logoutCatalog [] oracleUid5 ctx0 0 ['0', 's']
    (fun _ => by norm_num [oracleUid5])
  refine ⟨h.1, h.2 _ (List.get_mem _ 0 (by decide)) ?_⟩
  decide

/- ------------------------------------------------------------------ -/
/- C10: the user id changes at most once                               -/
/- ------------------------------------------------------------------ -/

/-- Relation between the user ids of two consecutive records: either they
are equal, or the earlier one was 0 (anonymous) and the later one is a fresh
identity in `[1, maxUserId]`. -/
def UidStep (maxUserId : Nat) (x y : Nat) : Prop :=
  x ≠ y → x = 0 ∧ 1 ≤ y ∧ y ≤ maxUserId

lemma stepUserId_cases (o : Oracle) (s : Nat) (st : SessionState) :
    stepUserId o s st = st.userId ∨
      (st.userId = 0 ∧
        candName1 (pickedEvent o s st) st.uniqueSessionEvents st.userId = "Login" ∧
        stepUserId o s st = o.promoteUserId s) := by
  unfold stepUserId promotedUserId
  by_cases hc : candName1 (pickedEvent o s st) st.uniqueSessionEvents st.userId = "Login" ∧
      st.userId = 0
  · rw [if_pos hc]; exact Or.inr ⟨hc.2, hc.1, rfl⟩
  · rw [if_neg hc]; exact Or.inl rfl

lemma stepUserId_of_ne (o : Oracle) (s : Nat) (st : SessionState)
    (h : st.userId ≠ 0) : stepUserId o s st = st.userId := by
  rcases stepUserId_cases o s st with hc | hc
  · exact hc
  · exact absurd hc.1 h

lemma candName1_login (ev : EventDef) (seen : List String) (userId : Nat)
    (h : candName1 ev seen userId = "Login") : ev.name = "Login" := by
  unfold candName1 at h
  rcases em ((ev.name = "Login" ∧ ev.name ∈ seen) ∨
      (ev.name = "CheckoutAsGuest" ∧ userId ≠ 0)) with hc | hc
  · rw [if_pos hc] at h; exact absurd h (by decide)
  · rw [if_neg hc] at h; exact h

lemma runSteps_uid_const (phones : List MobilePhone) (o : Oracle) (size : Nat)
    (ctx : StaticCtx) : ∀ (fuel s : Nat) (st : SessionState), st.userId ≠ 0 →
      ∀ r ∈ (runSteps phones o size ctx s fuel st).1, r.user_id = st.userId := by
  intro fuel
  induction fuel with
  | zero => intro s st _ r hr; simp [runSteps] at hr
  | succ n ih =>
    intro s st h r hr
    simp only [runSteps, List.mem_cons] at hr
    have huid : stepUserId o s st = st.userId := stepUserId_of_ne o s st h
    rcases hr with hcase | hcase
    · subst hcase; exact huid
    · have h' : (sessionStep phones o size ctx s st).1.userId ≠ 0 := by
        show stepUserId o s st ≠ 0
        rw [huid]; exact h
      exact (ih (s + 1) _ h' r hcase).trans huid

lemma runSteps_uid_pairwise (phones : List MobilePhone) (o : Oracle) (size : Nat)
    (ctx : StaticCtx) : ∀ (fuel s : Nat) (st : SessionState),
      ((runSteps phones o size ctx s fuel st).1).Pairwise
        (fun a b => a.user_id ≠ 0 → b.user_id = a.user_id) := by
  intro fuel
  induction fuel with
  | zero => intro s st; simp [runSteps]
  | succ n ih =>
    intro s st
    show ((sessionStep phones o size ctx s st).2 ::
      (runSteps phones o size ctx (s + 1) n (sessionStep phones o size ctx s st).1).1).Pairwise _
    refine List.pairwise_cons.mpr ⟨?_, ih (s + 1) _⟩
    intro b hb hne
    exact runSteps_uid_const phones o size ctx n (s + 1) _ hne b hb

/-- C10: in every generated session the user id changes at most once.  Every
record's `user_id` is at most `maxUserId`; once a record has a nonzero
`user_id`, every later record has that same `user_id` (a nonzero id never
returns to 0); a change between consecutive records can only be the
promotion `0 → fresh id in [1, maxUserId]`; and at the level of a single
step, the stored `user_id` changes only when the picked catalog entry is
named `Login` while the current `user_id` is 0, in which case it becomes the
`_get_user_id(start=1, end=maxUserId)` draw.  The hypotheses model the
ranges of the two `randint` calls. -/
theorem user_id_invariant (decVal : Char → Option Nat) (catalog : List EventDef) (phones : List MobilePhone)
    (o : Oracle) (ctx : StaticCtx) (now : ℚ) (start : List Char) (maxUserId : Nat)
    (hinit : o.initUserId ≤ maxUserId)
    (hprom : ∀ s, 1 ≤ o.promoteUserId s ∧ o.promoteUserId s ≤ maxUserId) :
    (∀ r ∈ recordsOf (sessionRun decVal catalog phones o ctx now start),
      r.user_id ≤ maxUserId) ∧
    (recordsOf (sessionRun decVal catalog phones o ctx now start)).Pairwise
      (fun a b => a.user_id ≠ 0 → b.user_id = a.user_id) ∧
    (recordsOf (sessionRun decVal catalog phones o ctx now start)).Chain'
      (fun a b => UidStep maxUserId a.user_id b.user_id) ∧
    (∀ s st, (sessionStep phones o o.sessionSize ctx s st).1.userId ≠ st.userId →
      st.userId = 0 ∧ (pickedEvent o s st).name = "Login" ∧
      (sessionStep phones o o.sessionSize ctx s st).1.userId = o.promoteUserId s) := by
  have hstep4 : ∀ s st,
      (sessionStep phones o o.sessionSize ctx s st).1.userId ≠ st.userId →
      st.userId = 0 ∧ (pickedEvent o s st).name = "Login" ∧
      (sessionStep phones o o.sessionSize ctx s st).1.userId = o.promoteUserId s := by
    intro s st h
    rcases stepUserId_cases o s st with hc | hc
    · exact absurd hc h
    · exact ⟨hc.1, candName1_login _ _ _ hc.2.1, hc.2.2⟩
  have hQ : ∀ s st, UidStep maxUserId st.userId
      (sessionStep phones o o.sessionSize ctx s st).2.user_id := by
    intro s st hne
    rcases stepUserId_cases o s st with hc | hc
    · exact absurd hc.symm hne
    · refine ⟨hc.1, ?_, ?_⟩
      · show 1 ≤ stepUserId o s st
        rw [hc.2.2]; exact (hprom s).1
      · show stepUserId o s st ≤ maxUserId
        rw [hc.2.2]; exact (hprom s).2
  cases hpt : parse_time_interval decVal start with
  | none =>
    unfold sessionRun recordsOf
    rw [hpt]
    exact ⟨by simp, by simp, by simp, hstep4⟩
  | some off =>
    have hrun : recordsOf (sessionRun decVal catalog phones o ctx now start) =
        (runSteps phones o o.sessionSize ctx 0 o.sessionSize
          (initState catalog o now off)).1 := by
      unfold sessionRun; rw [hpt]; rfl
    rw [hrun]
    refine ⟨?_, runSteps_uid_pairwise phones o o.sessionSize ctx o.sessionSize 0 _,
      ?_, hstep4⟩
    · refine runSteps_records_inv phones o o.sessionSize ctx
        (fun st => st.userId ≤ maxUserId) (fun r => r.user_id ≤ maxUserId)
        ?_ o.sessionSize 0 _ hinit
      intro s st hI
      have h1 : stepUserId o s st ≤ maxUserId := by
        rcases stepUserId_cases o s st with hc | hc
        · rw [hc]; exact hI
        · rw [hc.2.2]; exact (hprom s).2
      exact ⟨h1, h1⟩
    · exact (runSteps_chain_head phones o o.sessionSize ctx
        (fun a b => UidStep maxUserId a.user_id b.user_id)
        (fun st r => UidStep maxUserId st.userId r.user_id)
        hQ (fun s st b h => h) o.sessionSize 0 _).1

/-- C10 witness: the one-step Login-promotion run, with `maxUserId =
999999`. -/
theorem user_id_invariant_witness :
    (recordsOf (sessionRun asciiDigitVal loginCatalog [] baseOracle ctx0 0 ['0', 's'])).Pairwise
      (fun a b => a.user_id ≠ 0 → b.user_id = a.user_id) ∧
    (recordsOf (sessionRun asciiDigitVal loginCatalog [] baseOracle ctx0 0 ['0', 's'])).Chain'
      (fun a b => UidStep 999999 a.user_id b.user_id) ∧
    (sessionStep [] baseOracle baseOracle.sessionSize ctx0 0
      (initState loginCatalog baseOracle 0 0)).1.userId = baseOracle.promoteUserId 0 := by
  have h := user_id_invariant asciiDigitVal loginCatalog [] baseOracle ctx0 0 ['0', 's'] 999999
    (by norm_num [baseOracle])
    (fun s => ⟨by norm_num [baseOracle], by norm_num [baseOracle]⟩)
  refine ⟨h.2.1, h.2.2.1, (h.2.2.2 0 _ ?_).2.2⟩
  decide

/- ------------------------------------------------------------------ -/
/- C9: DeleteFromCart semantics                                        -/
/- ------------------------------------------------------------------ -/

/-- `AddToCart` or `IncreaseQuantity`: the two event names that put a
product code into `product_codes`. -/
def isAddEventName (n : String) : Prop := n = "AddToCart" ∨ n = "IncreaseQuantity"

lemma pickNat_mem (l : List Nat) (h : l ≠ []) (i : Nat) : pickNat l i ∈ l := by
  unfold pickNat
  have hlen : i % l.length < l.length := Nat.mod_lt _ (List.length_pos.mpr h)
  rw [List.getD_eq_getElem l 0 hlen]
  exact List.getElem_mem hlen

lemma stepMetadata_delete_pos (phones : List MobilePhone) (o : Oracle) (s : Nat)
    (pcs : List Nat) (hpc : pcs ≠ []) :
    stepMetadata phones o s "DeleteFromCart" pcs =
      ⟨none, some (pickNat pcs (o.deleteIdx s)), none, none⟩ := by
  show (if ("DeleteFromCart" : String) = "DeleteFromCart" ∧ pcs ≠ []
    then (⟨none, some (pickNat pcs (o.deleteIdx s)), none, none⟩ : Metadata)
    else ⟨none, none, none, none⟩) = _
  rw [if_pos ⟨rfl, hpc⟩]

lemma stepMetadata_delete_emptyPcs (phones : List MobilePhone) (o : Oracle)
    (s : Nat) : stepMetadata phones o s "DeleteFromCart" [] = emptyMetadata := rfl

lemma newProductCodes_delete_pos (o : Oracle) (s : Nat) (pcs : List Nat)
    (hpc : pcs ≠ []) :
    newProductCodes o s "DeleteFromCart" pcs =
      pcs.erase (pickNat pcs (o.deleteIdx s)) := by
  show (if ("DeleteFromCart" : String) = "DeleteFromCart" ∧ pcs ≠ []
    then pcs.erase (pickNat pcs (o.deleteIdx s)) else pcs) = _
  rw [if_pos ⟨rfl, hpc⟩]

lemma newProductCodes_no_add (o : Oracle) (s : Nat) (name3 : String)
    (h : ¬ isAddEventName name3) : newProductCodes o s name3 [] = [] := by
  have h' : ¬ (name3 = "AddToCart" ∨ name3 = "IncreaseQuantity") := h
  unfold newProductCodes
  simp only [if_neg h']
  rw [if_neg (fun hc => hc.2 rfl)]

lemma runSteps_delete_no_add (phones : List MobilePhone) (o : Oracle)
    (size : Nat) (ctx : StaticCtx) :
    ∀ (fuel s : Nat) (st : SessionState), st.productCodes = [] →
      ∀ i (hi : i < ((runSteps phones o size ctx s fuel st).1).length),
        (∀ j (hj : j < i), ¬ isAddEventName
          (((runSteps phones o size ctx s fuel st).1).get
            ⟨j, Nat.lt_trans hj hi⟩).event_name) →
        (((runSteps phones o size ctx s fuel st).1).get ⟨i, hi⟩).event_name =
          "DeleteFromCart" →
        (((runSteps phones o size ctx s fuel st).1).get ⟨i, hi⟩).metadata =
          emptyMetadata := by
  intro fuel
  induction fuel with
  | zero =>
    intro s st _ i hi
    simp [runSteps] at hi
  | succ n ih =>
    intro s st hpc i hi hnoadd hdel
    cases i with
    | zero =>
      have hname : stepName3 o s st = "DeleteFromCart" := hdel
      show stepMetadata phones o s (stepName3 o s st) st.productCodes = emptyMetadata
      rw [hname, hpc]
      exact stepMetadata_delete_emptyPcs phones o s
    | succ i =>
      have h0 : ¬ isAddEventName (stepName3 o s st) :=
        hnoadd 0 (Nat.succ_pos i)
      have hpc' : (sessionStep phones o size ctx s st).1.productCodes = [] := by
        show newProductCodes o s (stepName3 o s st) st.productCodes = []
        rw [hpc]
        exact newProductCodes_no_add o s _ h0
      exact ih (s + 1) _ hpc' i (Nat.lt_of_succ_lt_succ hi)
        (fun j hj => hnoadd (j + 1) (Nat.succ_lt_succ hj)) hdel

/-- C9: for a record with `event_name = "DeleteFromCart"`: when
`product_codes` is non-empty at that step, the element picked by
`choice(list(product_codes))` is a member of the set, it is removed from the
set, and it is stored in the record's metadata as `product_id` (and nothing
else is stored); and in a full session, a `DeleteFromCart` record with no
prior `AddToCart`/`IncreaseQuantity` record (so the set is still empty) has
empty metadata — a no-op, not an error. -/
theorem delete_from_cart_spec (decVal : Char → Option Nat) (catalog : List EventDef) (phones : List MobilePhone)
    (o : Oracle) (ctx : StaticCtx) (now : ℚ) (start : List Char) :
    (∀ (s : Nat) (st : SessionState), st.productCodes ≠ [] →
      (sessionStep phones o o.sessionSize ctx s st).2.event_name = "DeleteFromCart" →
      (sessionStep phones o o.sessionSize ctx s st).2.metadata =
        ⟨none, some (pickNat st.productCodes (o.deleteIdx s)), none, none⟩ ∧
      pickNat st.productCodes (o.deleteIdx s) ∈ st.productCodes ∧
      (sessionStep phones o o.sessionSize ctx s st).1.productCodes =
        st.productCodes.erase (pickNat st.productCodes (o.deleteIdx s))) ∧
    (∀ i (hi : i < (recordsOf (sessionRun decVal catalog phones o ctx now start)).length),
      (∀ j (hj : j < i), ¬ isAddEventName
        (((recordsOf (sessionRun decVal catalog phones o ctx now start)).get
          ⟨j, Nat.lt_trans hj hi⟩).event_name)) →
      ((recordsOf (sessionRun decVal catalog phones o ctx now start)).get
        ⟨i, hi⟩).event_name = "DeleteFromCart" →
      ((recordsOf (sessionRun decVal catalog phones o ctx now start)).get
        ⟨i, hi⟩).metadata = emptyMetadata) := by
  constructor
  · intro s st hpc hname
    have h3 : stepName3 o s st = "DeleteFromCart" := hname
    refine ⟨?_, pickNat_mem st.productCodes hpc (o.deleteIdx s), ?_⟩
    · show stepMetadata phones o s (stepName3 o s st) st.productCodes = _
      rw [h3]
      exact stepMetadata_delete_pos phones o s st.productCodes hpc
    · show newProductCodes o s (stepName3 o s st) st.productCodes = _
      rw [h3]
      exact newProductCodes_delete_pos o s st.productCodes hpc
  · cases hpt : parse_time_interval decVal start with
    | none =>
      have h0 : recordsOf (sessionRun decVal catalog phones o ctx now start) = [] := by
        unfold sessionRun recordsOf; rw [hpt]
      rw [h0]
      intro i hi
      simp at hi
    | some off =>
      have hrun : recordsOf (sessionRun decVal catalog phones o ctx now start) =
          (runSteps phones o o.sessionSize ctx 0 o.sessionSize
            (initState catalog o now off)).1 := by
        unfold sessionRun; rw [hpt]; rfl
      rw [hrun]
      exact runSteps_delete_no_add phones o o.sessionSize ctx o.sessionSize 0
        (initState catalog o now off) rfl

/-- C9 witness: a non-empty-cart `DeleteFromCart` step (cart `[9]`), and a
one-event session whose single record is an empty-cart `DeleteFromCart` with
empty metadata. -/
theorem delete_from_cart_spec_witness :
    (sessionStep [] baseOracle baseOracle.sessionSize ctx0 0
        ⟨deleteCatalog, 5, [], [9], 0⟩).2.metadata =
      ⟨none, some (pickNat [9] (baseOracle.deleteIdx 0)), none, none⟩ ∧
    ((recordsOf (sessionRun asciiDigitVal deleteCatalog [] baseOracle ctx0 0 ['0', 's'])).get
      ⟨0, by decide⟩).metadata = emptyMetadata := by
  have h := delete_from_cart_spec asciiDigitVal deleteCatalog [] baseOracle ctx0 0 ['0', 's']
  constructor
  · exact (h.1 0 ⟨deleteCatalog, 5, [], [9], 0⟩ (by decide) (by decide)).1
  · exact h.2 0 (by decide) (fun j hj => absurd hj (Nat.not_lt_zero j)) (by decide)

/- ------------------------------------------------------------------ -/
/- C3 (amended): when the seen-set records the emitted name            -/
/- ------------------------------------------------------------------ -/

lemma mem_addUnique_self {α : Type} [DecidableEq α] (l : List α) (x : α) :
    x ∈ addUnique l x := by
  unfold addUnique
  split
  · assumption
  · simp

/-- C3 (amended): the name added to `unique_session_events` at a step is the
candidate name after the duplicate-`Login`, `CheckoutAsGuest` and
`Login`/`Logout` substitution rules but before the dependency-filter rule
(line 111 runs before lines 114-122); that name is still in the set after
the step.  When the candidate has no unmet dependency the recorded name
equals the `event_name` of the emitted record, but when the dependency rule
substitutes, the record is emitted as `Search` while the set keeps the
pre-substitution name. -/
theorem seen_event_added_before_dependency (phones : List MobilePhone)
    (o : Oracle) (size : Nat) (ctx : StaticCtx) (s : Nat) (st : SessionState) :
    (sessionStep phones o size ctx s st).1.uniqueSessionEvents =
      removeCompleted (stepName3 o s st)
        (addUnique st.uniqueSessionEvents (stepName2 o s st)) ∧
    stepName2 o s st ∈ (sessionStep phones o size ctx s st).1.uniqueSessionEvents ∧
    ((pickedEvent o s st).dependsOn = [] ∨
        depSatisfied (pickedEvent o s st) (stepSeen1 o s st) = true →
      (sessionStep phones o size ctx s st).2.event_name = stepName2 o s st) ∧
    ((pickedEvent o s st).dependsOn ≠ [] ∧
        depSatisfied (pickedEvent o s st) (stepSeen1 o s st) = false →
      (sessionStep phones o size ctx s st).2.event_name = "Search") := by
  have hmem : stepName2 o s st ∈ stepSeen1 o s st :=
    mem_addUnique_self st.uniqueSessionEvents (stepName2 o s st)
  refine ⟨rfl, ?_, ?_, ?_⟩
  · show stepName2 o s st ∈ removeCompleted (stepName3 o s st) (stepSeen1 o s st)
    unfold removeCompleted
    by_cases hco : stepName3 o s st = "CompleteOrder"
    · rw [if_pos hco]
      have hn2 : stepName2 o s st = "CompleteOrder" := by
        unfold stepName3 candName3 at hco
        rcases em ((pickedEvent o s st).dependsOn ≠ [] ∧
            depSatisfied (pickedEvent o s st) (stepSeen1 o s st) = false) with hc | hc
        · rw [if_pos hc] at hco; exact absurd hco (by decide)
        · rw [if_neg hc] at hco; exact hco
      rw [hn2]
      refine (List.mem_erase_of_ne (by decide)).mpr ?_
      refine (List.mem_erase_of_ne (by decide)).mpr ?_
      refine (List.mem_erase_of_ne (by decide)).mpr ?_
      rw [← hn2]; exact hmem
    · rw [if_neg hco]; exact hmem
  · intro hdep
    show stepName3 o s st = stepName2 o s st
    unfold stepName3 candName3
    rcases hdep with hd | hd
    · rw [if_neg (fun hc => hc.1 hd)]
    · rw [if_neg (fun hc => by rw [hd] at hc; exact absurd hc.2 (by decide))]
  · intro hdep
    show stepName3 o s st = "Search"
    unfold stepName3 candName3
    rw [if_pos hdep]

/-- C3 witness for the amended statement: the `Checkout`-with-unmet-
dependency step emits `Search` while keeping `Checkout` in the set. -/
theorem seen_event_added_before_dependency_witness :
    (sessionStep [] oracleUid5 1 ctx0 0
        ⟨checkoutCatalog, 5, [], [], 0⟩).2.event_name = "Search" ∧
    stepName2 oracleUid5 0 ⟨checkoutCatalog, 5, [], [], 0⟩ ∈
      (sessionStep [] oracleUid5 1 ctx0 0
        ⟨checkoutCatalog, 5, [], [], 0⟩).1.uniqueSessionEvents := by
  have h := seen_event_added_before_dependency [] oracleUid5 1 ctx0 0
    ⟨checkoutCatalog, 5, [], [], 0⟩
  exact ⟨h.2.2.2 (by decide), h.2.1⟩

end Clickstream
